import Mathlib

/-!
Shallow embedding of the SECT electrode-impedance tester
(src/device/test2.py, canonical revision, and the legacy formula of
src/device/test.py). Python floats are modelled as exact rationals ℚ;
the I2C transport is modelled as a function from transaction index to an
optional byte pair (`none` = the transport raises).
-/

namespace SECT

/-- rpi_ws281x Color(red, green, blue): an RGB triple. -/
structure RGB where
  red : Nat
  green : Nat
  blue : Nat
deriving Repr, DecidableEq

/-- Color constructor, as called in the Python source. -/
def Color (r g b : Nat) : RGB := ⟨r, g, b⟩

/-- test2.py line 27: `V_IN_NOMINAL = 3.3` (fallback excitation voltage). -/
def V_IN_NOMINAL : ℚ := 3.3

/-- test2.py line 30: `RS_VALUES = [9950, 9890, 9970, 9930]` (Ohm, ch0..ch3). -/
def RS_VALUES : List ℚ := [9950, 9890, 9970, 9930]

/-- test2.py line 33: `FAIL_RESISTANCE_VALUE = 1_000_000_000.0` (1 GΩ sentinel). -/
def FAIL_RESISTANCE_VALUE : ℚ := 1000000000

/-- test2.py line 37: `RESISTANCE_RANGES["GOOD"] = (100.0, 5000.0)`. -/
def RESISTANCE_RANGES_GOOD : ℚ × ℚ := (100, 5000)

/-- test2.py line 38: `RESISTANCE_RANGES["ACCEPTABLE"] = (5001.0, 20000.0)`. -/
def RESISTANCE_RANGES_ACCEPTABLE : ℚ × ℚ := (5001, 20000)

/-- test2.py line 39: `RESISTANCE_RANGES["BAD"] = (20001.0, 500000.0)`. -/
def RESISTANCE_RANGES_BAD : ℚ × ℚ := (20001, 500000)

/-- test2.py line 40: `RESISTANCE_RANGES["FAIL"] = (500001.0, FAIL_RESISTANCE_VALUE)`. -/
def RESISTANCE_RANGES_FAIL : ℚ × ℚ := (500001, FAIL_RESISTANCE_VALUE)

/-- test2.py lines 111-123: map an impedance (Ohm) to (status, color). -/
def determine_status_and_color (r_ohm : ℚ) : String × RGB :=
  if r_ohm < RESISTANCE_RANGES_GOOD.1 then ("ACCEPTABLE", Color 255 255 0)
  else if r_ohm ≤ RESISTANCE_RANGES_GOOD.2 then ("GOOD", Color 0 255 0)
  else if r_ohm ≤ RESISTANCE_RANGES_ACCEPTABLE.2 then ("ACCEPTABLE", Color 255 255 0)
  else if r_ohm ≤ RESISTANCE_RANGES_BAD.2 then ("BAD", Color 255 0 0)
  else ("FAIL", Color 0 0 255)

/-- test2.py lines 130-134: `R_electrode = R_s * ((V_in - V_adc) / V_adc)`,
guarded against division by zero and nonsense measurements. -/
def calculate_impedance (v_adc r_s v_in : ℚ) : ℚ :=
  if v_adc ≤ 0.01 ∨ v_adc ≥ v_in then FAIL_RESISTANCE_VALUE
  else r_s * ((v_in - v_adc) / v_adc)

/-- test.py line 27: `R_REF = 10000.0`. -/
def R_REF : ℚ := 10000

/-- test.py line 28: `V_IN = 3.3`. -/
def V_IN : ℚ := 3.3

/-- test.py lines 182-184 (inside measure_channel): the legacy resistance
formula `r_val = R_REF * (val / (V_IN - val)) if 0 < val < V_IN else 0.0`. -/
def r_val_legacy (val : ℚ) : ℚ :=
  if 0 < val ∧ val < V_IN then R_REF * (val / (V_IN - val)) else 0

/-- The smbus2 transport as seen by one `read_voltage` call: whether the
config write succeeds, and the byte pair returned by the i-th
`read_i2c_block_data` transaction (`none` = the transport raises). -/
structure SMBus where
  writeOk : Bool
  readBlock : Nat → Option (Fin 256 × Fin 256)

/-- test2.py line 67: `mux = {0: 0x4, 1: 0x5, 2: 0x6, 3: 0x7}`. -/
def muxCode (channel : Nat) : Option Nat :=
  if channel = 0 then some 0x4
  else if channel = 1 then some 0x5
  else if channel = 2 then some 0x6
  else if channel = 3 then some 0x7
  else none

/-- test2.py lines 81-82: two's-complement sign fix,
`if raw > 32767: raw -= 65536`. -/
def toSigned (raw : Nat) : Int :=
  if raw > 32767 then (raw : Int) - 65536 else (raw : Int)

/-- test2.py line 85: `raw * 0.000125` (4.096 V range / 32768 counts). -/
def rawToVolts (raw : Nat) : ℚ := (toSigned raw : ℚ) * 0.000125

namespace ADS1115

/-- test2.py lines 65-88: configure the mux for the channel, wait for the
conversion, read one two-byte result and convert it to volts; any transport
failure (config write or result read) returns 0.0. -/
def read_voltage (bus : SMBus) (channel : Nat) : ℚ :=
  match muxCode channel with
  | none => 0
  | some _ =>
    if bus.writeOk then
      match bus.readBlock 0 with
      | none => 0
      | some (b0, b1) => rawToVolts ((b0.val <<< 8) ||| b1.val)
    else 0

end ADS1115

/-- Modelled from the spec: the stabilized reader of §4.1 that the code base
does not contain — one discard ("dummy") read after the mux switch, a settle
wait, then K = 3 consecutive samples whose arithmetic mean is converted to
volts; a transport failure still yields 0.0. -/
def read_voltage_stabilized (bus : SMBus) (channel : Nat) : ℚ :=
  match muxCode channel with
  | none => 0
  | some _ =>
    if bus.writeOk then
      match bus.readBlock 0, bus.readBlock 1, bus.readBlock 2, bus.readBlock 3 with
      | some _, some s1, some s2, some s3 =>
          (rawToVolts ((s1.1.val <<< 8) ||| s1.2.val) +
           rawToVolts ((s2.1.val <<< 8) ||| s2.2.val) +
           rawToVolts ((s3.1.val <<< 8) ||| s3.2.val)) / 3
      | _, _, _, _ => 0
    else 0

/-- The tuple returned by test2.py's measure_channel:
`(channel, voltage, resistance_ohm, status, color)`. -/
structure ChannelResult where
  channel : Nat
  voltage : ℚ
  resistance : ℚ
  status : String
  color : RGB
deriving Repr, DecidableEq

/-- test2.py lines 220-239: measure one channel. `ads` is `none` when the
ADS1115 was not initialized; otherwise the channel's voltage is read, the
per-channel reference resistance looked up (falling back to the last entry),
and the impedance computed and classified. -/
def measure_channel (channel : Nat) (ads : Option SMBus) (v_in_actual : ℚ) : ChannelResult :=
  match ads with
  | none => ⟨channel, 0, FAIL_RESISTANCE_VALUE, "NO_ADS", Color 0 0 255⟩
  | some bus =>
    let val := ADS1115.read_voltage bus channel
    let r_s := if channel < RS_VALUES.length then RS_VALUES.getD channel 0
               else RS_VALUES.getD (RS_VALUES.length - 1) 0
    let r_val := calculate_impedance val r_s v_in_actual
    let sc := determine_status_and_color r_val
    ⟨channel, val, r_val, sc.1, sc.2⟩

/-- test2.py line 300: `channels = [0, 1, 2, 3]`. -/
def channels : List Nat := [0, 1, 2, 3]

/-- The four per-channel result lists that start_test accumulates
(voltages, resistances, statuses, colors). -/
structure CycleResult where
  voltages : List ℚ
  resistances : List ℚ
  statuses : List String
  colors : List RGB
deriving Repr, DecidableEq

/-- test2.py lines 302-305: the initial result lists,
`[0.0]*4`, `[0.0]*4`, `["N/A"]*4`, `[Color(0,0,0)]*4`. -/
def initCycle : CycleResult :=
  ⟨List.replicate channels.length 0, List.replicate channels.length 0,
   List.replicate channels.length "N/A", List.replicate channels.length (Color 0 0 0)⟩

/-- test2.py lines 313-319: one step of the as_completed fan-in loop —
place the completed channel's fields at index `channels.index(ch)`. -/
def fanInStep (acc : CycleResult) (r : ChannelResult) : CycleResult :=
  let idx := channels.indexOf r.channel
  ⟨acc.voltages.set idx r.voltage, acc.resistances.set idx r.resistance,
   acc.statuses.set idx r.status, acc.colors.set idx r.color⟩

/-- test2.py line 297: `v_in_actual = bus_voltage if bus_voltage > 2.5 else
V_IN_NOMINAL`. -/
def v_in_actual (bus_voltage : ℚ) : ℚ :=
  if bus_voltage > 2.5 then bus_voltage else V_IN_NOMINAL

/-- test2.py lines 296-319, the measurement cycle of start_test: pick the
excitation voltage, measure every channel, and fan the results in. `order`
is the completion order in which as_completed yields the four futures;
`busFor` gives the transport state each channel's read encounters. -/
def start_test (ads : Option (Nat → SMBus)) (bus_voltage : ℚ) (order : List Nat) : CycleResult :=
  let vin := v_in_actual bus_voltage
  (order.map (fun ch => measure_channel ch (ads.map (fun f => f ch)) vin)).foldl
    fanInStep initCycle

/-- A transport whose config write succeeds but whose result read raises. -/
def busDead : SMBus := ⟨true, fun _ => none⟩

/-- A healthy transport: every read returns the byte pair (52, 0), i.e. the
raw count 13312, i.e. 1.664 V. -/
def busSteady : SMBus := ⟨true, fun _ => some (⟨52, by norm_num⟩, ⟨0, by norm_num⟩)⟩

/-- A cycle-level transport assignment in which only channel 2's read fails. -/
def busOnly2Fails : Nat → SMBus := fun ch => if ch = 2 then busDead else busSteady

/-- A transport delivering the raw counts 768, 1536, 2304, 3072 on its
successive read transactions (0.096 V, 0.192 V, 0.288 V, 0.384 V). -/
def busRamp : SMBus :=
  ⟨true, fun i =>
    if i = 0 then some (⟨3, by norm_num⟩, ⟨0, by norm_num⟩)
    else if i = 1 then some (⟨6, by norm_num⟩, ⟨0, by norm_num⟩)
    else if i = 2 then some (⟨9, by norm_num⟩, ⟨0, by norm_num⟩)
    else some (⟨12, by norm_num⟩, ⟨0, by norm_num⟩)⟩

/-- A transport agreeing with busRamp on transaction 0 only; every later
read transaction raises. -/
def busRampCut : SMBus :=
  ⟨true, fun i => if i = 0 then some (⟨3, by norm_num⟩, ⟨0, by norm_num⟩) else none⟩

/- ------------------------------------------------------------------
Helper lemmas
------------------------------------------------------------------ -/

theorem determine_band_short (r : ℚ) (h : r < 100) :
    determine_status_and_color r = ("ACCEPTABLE", Color 255 255 0) := by
  simp [determine_status_and_color, RESISTANCE_RANGES_GOOD, h]

theorem determine_band_good (r : ℚ) (h1 : 100 ≤ r) (h2 : r ≤ 5000) :
    determine_status_and_color r = ("GOOD", Color 0 255 0) := by
  have hn : ¬ r < 100 := not_lt.mpr h1
  simp [determine_status_and_color, RESISTANCE_RANGES_GOOD, hn, h2]

theorem determine_band_acceptable (r : ℚ) (h1 : 5000 < r) (h2 : r ≤ 20000) :
    determine_status_and_color r = ("ACCEPTABLE", Color 255 255 0) := by
  have hn1 : ¬ r < 100 := by push_neg; linarith
  have hn2 : ¬ r ≤ 5000 := not_le.mpr h1
  simp [determine_status_and_color, RESISTANCE_RANGES_GOOD, RESISTANCE_RANGES_ACCEPTABLE,
    hn1, hn2, h2]

theorem determine_band_bad (r : ℚ) (h1 : 20000 < r) (h2 : r ≤ 500000) :
    determine_status_and_color r = ("BAD", Color 255 0 0) := by
  have hn1 : ¬ r < 100 := by push_neg; linarith
  have hn2 : ¬ r ≤ 5000 := by push_neg; linarith
  have hn3 : ¬ r ≤ 20000 := not_le.mpr h1
  simp [determine_status_and_color, RESISTANCE_RANGES_GOOD, RESISTANCE_RANGES_ACCEPTABLE,
    RESISTANCE_RANGES_BAD, hn1, hn2, hn3, h2]

theorem determine_band_fail (r : ℚ) (h : 500000 < r) :
    determine_status_and_color r = ("FAIL", Color 0 0 255) := by
  have hn1 : ¬ r < 100 := by push_neg; linarith
  have hn2 : ¬ r ≤ 5000 := by push_neg; linarith
  have hn3 : ¬ r ≤ 20000 := by push_neg; linarith
  have hn4 : ¬ r ≤ 500000 := not_le.mpr h
  simp [determine_status_and_color, RESISTANCE_RANGES_GOOD, RESISTANCE_RANGES_ACCEPTABLE,
    RESISTANCE_RANGES_BAD, hn1, hn2, hn3, hn4]

theorem calculate_impedance_guard (v r_s vin : ℚ) (h : v ≤ 0.01 ∨ v ≥ vin) :
    calculate_impedance v r_s vin = FAIL_RESISTANCE_VALUE := by
  simp [calculate_impedance, h]

theorem calculate_impedance_formula (v r_s vin : ℚ) (h1 : 0.01 < v) (h2 : v < vin) :
    calculate_impedance v r_s vin = r_s * ((vin - v) / v) := by
  have hn : ¬ (v ≤ 0.01 ∨ v ≥ vin) := by push_neg; exact ⟨h1, h2⟩
  simp [calculate_impedance, hn]

theorem calculate_impedance_sentinel_or_pos (v r_s vin : ℚ) (hr : 0 < r_s) :
    calculate_impedance v r_s vin = FAIL_RESISTANCE_VALUE ∨
      0 < calculate_impedance v r_s vin := by
  by_cases h : v ≤ 0.01 ∨ v ≥ vin
  · exact Or.inl (calculate_impedance_guard v r_s vin h)
  · right
    push_neg at h
    rw [calculate_impedance_formula v r_s vin h.1 h.2]
    have hv : (0 : ℚ) < v := lt_trans (by norm_num) h.1
    exact mul_pos hr (div_pos (by linarith [h.2]) hv)

theorem read_voltage_of_failure (bus : SMBus) (ch : Nat)
    (h : bus.writeOk = false ∨ bus.readBlock 0 = none) :
    ADS1115.read_voltage bus ch = 0 := by
  unfold ADS1115.read_voltage
  cases hm : muxCode ch with
  | none => rfl
  | some m =>
    rcases h with h | h
    · simp [h]
    · simp [h]

theorem measure_channel_channel (ch : Nat) (a : Option SMBus) (v : ℚ) :
    (measure_channel ch a v).channel = ch := by
  cases a <;> rfl

theorem getD_set_split {α : Type} (l : List α) (i j : Nat) (x d : α) (hi : i < l.length) :
    (l.set i x).getD j d = if j = i then x else l.getD j d := by
  rcases eq_or_ne j i with rfl | hne
  · rw [List.getD_eq_getElem _ _ (by simpa using hi), if_pos rfl]
    simp [List.getElem_set, hi]
  · rw [if_neg hne]
    rcases lt_or_ge j l.length with hj | hj
    · rw [List.getD_eq_getElem _ _ (by simpa using hj), List.getD_eq_getElem _ _ hj]
      rw [List.getElem_set]
      simp [Ne.symm hne]
    · rw [List.getD_eq_default _ _ (by simpa using hj), List.getD_eq_default _ _ hj]

theorem channels_indexOf (ch : Nat) (h : ch < 4) : channels.indexOf ch = ch := by
  interval_cases ch <;> rfl

/-- The voltages component of the fan-in fold is a fold of list writes. -/
theorem foldl_fanInStep_voltages (rs : List ChannelResult) (acc : CycleResult) :
    (rs.foldl fanInStep acc).voltages =
      rs.foldl (fun L r => L.set (channels.indexOf r.channel) r.voltage) acc.voltages := by
  induction rs generalizing acc with
  | nil => rfl
  | cons r t ih => simp [fanInStep, ih]

/-- The resistances component of the fan-in fold is a fold of list writes. -/
theorem foldl_fanInStep_resistances (rs : List ChannelResult) (acc : CycleResult) :
    (rs.foldl fanInStep acc).resistances =
      rs.foldl (fun L r => L.set (channels.indexOf r.channel) r.resistance) acc.resistances := by
  induction rs generalizing acc with
  | nil => rfl
  | cons r t ih => simp [fanInStep, ih]

/-- The statuses component of the fan-in fold is a fold of list writes. -/
theorem foldl_fanInStep_statuses (rs : List ChannelResult) (acc : CycleResult) :
    (rs.foldl fanInStep acc).statuses =
      rs.foldl (fun L r => L.set (channels.indexOf r.channel) r.status) acc.statuses := by
  induction rs generalizing acc with
  | nil => rfl
  | cons r t ih => simp [fanInStep, ih]

/-- The colors component of the fan-in fold is a fold of list writes. -/
theorem foldl_fanInStep_colors (rs : List ChannelResult) (acc : CycleResult) :
    (rs.foldl fanInStep acc).colors =
      rs.foldl (fun L r => L.set (channels.indexOf r.channel) r.color) acc.colors := by
  induction rs generalizing acc with
  | nil => rfl
  | cons r t ih => simp [fanInStep, ih]

/-- A fold of list writes preserves length. -/
theorem foldl_writeAt_length {α : Type} (proj : ChannelResult → α)
    (rs : List ChannelResult) (L : List α) :
    (rs.foldl (fun acc r => acc.set (channels.indexOf r.channel) (proj r)) L).length =
      L.length := by
  induction rs generalizing L with
  | nil => rfl
  | cons r t ih => simp [ih]

/-- A fold of list writes at channel positions: position `i` ends up holding
channel `i`'s projected value as soon as channel `i` arrives at least once,
and is untouched otherwise. -/
theorem foldl_writeAt_getD {α : Type} (proj : ChannelResult → α)
    (f : Nat → ChannelResult) (hf : ∀ ch, (f ch).channel = ch)
    (l : List Nat) (hl : ∀ ch ∈ l, ch < 4)
    (L : List α) (hL : L.length = 4) (d : α) (i : Nat) :
    ((l.map f).foldl (fun acc r => acc.set (channels.indexOf r.channel) (proj r)) L).getD i d =
      if i ∈ l then proj (f i) else L.getD i d := by
  induction l generalizing L with
  | nil => simp
  | cons ch t ih =>
    have hch : ch < 4 := hl ch (by simp)
    have hl' : ∀ c ∈ t, c < 4 := fun c hc => hl c (List.mem_cons_of_mem _ hc)
    have hLset : (L.set (channels.indexOf (f ch).channel) (proj (f ch))).length = 4 := by
      simpa using hL
    rw [List.map_cons, List.foldl_cons, ih hl' _ hLset]
    rw [hf ch, channels_indexOf ch hch]
    rcases Decidable.em (i ∈ t) with hit | hit
    · rw [if_pos hit, if_pos (List.mem_cons_of_mem _ hit)]
    · rw [if_neg hit]
      rw [getD_set_split L ch i (proj (f ch)) d (by rw [hL]; exact hch)]
      rcases eq_or_ne i ch with rfl | hne
      · rw [if_pos rfl, if_pos (List.mem_cons_self _ _)]
      · rw [if_neg hne, if_neg (by simp [hne, hit])]

/-- Each list of the cycle result keeps length 4 for any completion order. -/
theorem start_test_lengths (ads : Option (Nat → SMBus)) (bv : ℚ) (order : List Nat) :
    (start_test ads bv order).voltages.length = 4 ∧
    (start_test ads bv order).resistances.length = 4 ∧
    (start_test ads bv order).statuses.length = 4 ∧
    (start_test ads bv order).colors.length = 4 := by
  unfold start_test
  refine ⟨?_, ?_, ?_, ?_⟩
  · rw [foldl_fanInStep_voltages]
    exact (foldl_writeAt_length (fun r => r.voltage) _ _).trans (by rfl)
  · rw [foldl_fanInStep_resistances]
    exact (foldl_writeAt_length (fun r => r.resistance) _ _).trans (by rfl)
  · rw [foldl_fanInStep_statuses]
    exact (foldl_writeAt_length (fun r => r.status) _ _).trans (by rfl)
  · rw [foldl_fanInStep_colors]
    exact (foldl_writeAt_length (fun r => r.color) _ _).trans (by rfl)

/-- Whatever order the four futures complete in, position `i` of each output
list holds exactly channel `i`'s measured fields. -/
theorem start_test_getD (ads : Option (Nat → SMBus)) (bv : ℚ) (order : List Nat)
    (horder : ∀ ch ∈ order, ch < 4) (i : Nat) (hmem : i ∈ order) :
    (start_test ads bv order).voltages.getD i 0 =
      (measure_channel i (ads.map (fun f => f i)) (v_in_actual bv)).voltage ∧
    (start_test ads bv order).resistances.getD i 0 =
      (measure_channel i (ads.map (fun f => f i)) (v_in_actual bv)).resistance ∧
    (start_test ads bv order).statuses.getD i "" =
      (measure_channel i (ads.map (fun f => f i)) (v_in_actual bv)).status ∧
    (start_test ads bv order).colors.getD i (Color 0 0 0) =
      (measure_channel i (ads.map (fun f => f i)) (v_in_actual bv)).color := by
  have hf : ∀ ch, (measure_channel ch (ads.map (fun f => f ch)) (v_in_actual bv)).channel = ch :=
    fun ch => measure_channel_channel ch _ _
  unfold start_test
  refine ⟨?_, ?_, ?_, ?_⟩
  · rw [foldl_fanInStep_voltages,
      foldl_writeAt_getD (fun r => r.voltage) _ hf order horder _ (by rfl) 0 i, if_pos hmem]
  · rw [foldl_fanInStep_resistances,
      foldl_writeAt_getD (fun r => r.resistance) _ hf order horder _ (by rfl) 0 i, if_pos hmem]
  · rw [foldl_fanInStep_statuses,
      foldl_writeAt_getD (fun r => r.status) _ hf order horder _ (by rfl) "" i, if_pos hmem]
  · rw [foldl_fanInStep_colors,
      foldl_writeAt_getD (fun r => r.color) _ hf order horder _ (by rfl) (Color 0 0 0) i,
      if_pos hmem]

theorem list_ext_of_getD {α : Type} (L M : List α) (d : α) (hL : L.length = 4)
    (hM : M.length = 4) (h : ∀ i, i < 4 → L.getD i d = M.getD i d) : L = M := by
  apply List.ext_getElem (by rw [hL, hM])
  intro i h1 h2
  have hi := h i (by rwa [hL] at h1)
  rwa [List.getD_eq_getElem _ _ h1, List.getD_eq_getElem _ _ h2] at hi

theorem mem_channels_lt (c : Nat) (h : c ∈ channels) : c < 4 := by
  simp only [channels, List.mem_cons, List.mem_singleton] at h
  rcases h with rfl | rfl | rfl | h
  · norm_num
  · norm_num
  · norm_num
  · simp at h; omega

theorem lt4_mem_channels (i : Nat) (h : i < 4) : i ∈ channels := by
  interval_cases i <;> decide

theorem cycleResult_ext (a b : CycleResult) (hv : a.voltages = b.voltages)
    (hr : a.resistances = b.resistances) (hs : a.statuses = b.statuses)
    (hc : a.colors = b.colors) : a = b := by
  cases a; cases b; simp_all

theorem RS_VALUES_getD_pos (i : Nat) (h : i < 4) : 0 < RS_VALUES.getD i 0 := by
  interval_cases i <;> norm_num [RS_VALUES]

/-- A channel whose config write or result read raises measures 0.0 V, so
its impedance is the sentinel and its status is FAIL. -/
theorem measure_channel_failed (ch : Nat) (bus : SMBus) (vin : ℚ) (hch : ch < 4)
    (h : bus.writeOk = false ∨ bus.readBlock 0 = none) :
    measure_channel ch (some bus) vin =
      ⟨ch, 0, FAIL_RESISTANCE_VALUE, "FAIL", Color 0 0 255⟩ := by
  have hread := read_voltage_of_failure bus ch h
  have himp : ∀ r_s : ℚ, calculate_impedance 0 r_s vin = FAIL_RESISTANCE_VALUE := fun r_s =>
    calculate_impedance_guard _ _ _ (Or.inl (by norm_num))
  have hdet : determine_status_and_color FAIL_RESISTANCE_VALUE = ("FAIL", Color 0 0 255) :=
    determine_band_fail _ (by norm_num [FAIL_RESISTANCE_VALUE])
  have hlen : ch < RS_VALUES.length := by simpa [RS_VALUES] using hch
  simp [measure_channel, hread, hlen, himp, hdet]

/-- Unfolding of measure_channel when the ADS1115 is present and the channel
index is in range. -/
theorem measure_channel_some (ch : Nat) (bus : SMBus) (vin : ℚ) (hch : ch < 4) :
    measure_channel ch (some bus) vin =
      ⟨ch, ADS1115.read_voltage bus ch,
       calculate_impedance (ADS1115.read_voltage bus ch) (RS_VALUES.getD ch 0) vin,
       (determine_status_and_color (calculate_impedance (ADS1115.read_voltage bus ch)
          (RS_VALUES.getD ch 0) vin)).1,
       (determine_status_and_color (calculate_impedance (ADS1115.read_voltage bus ch)
          (RS_VALUES.getD ch 0) vin)).2⟩ := by
  have hlen : ch < RS_VALUES.length := by simpa [RS_VALUES] using hch
  simp [measure_channel, hlen]

/- ------------------------------------------------------------------
Claim theorems
------------------------------------------------------------------ -/

/-- C1 counterexample: at measured_voltage = 1/128 V (0.0078125 V, which is
strictly between 0 and the excitation voltage 3.3 V but below the 0.01 V
guard), calculate_impedance returns the sentinel, not the divider formula,
so the claim's range `0 < measured_voltage < excitation_voltage` is wrong. -/
theorem C1_counterexample :
    (0 : ℚ) < 1/128 ∧ (1/128 : ℚ) < 33/10 ∧
    calculate_impedance (1/128) 10000 (33/10) ≠
      10000 * (((33 : ℚ)/10 - 1/128) / (1/128)) := by
  refine ⟨by norm_num, by norm_num, ?_⟩
  rw [calculate_impedance_guard _ _ _ (Or.inl (by norm_num))]
  norm_num [FAIL_RESISTANCE_VALUE]

/-- C1 (amended): for every measured voltage strictly above the 0.01 V guard
and strictly below the excitation voltage, and every non-negative reference
resistance, calculate_impedance returns the non-negative (finite, since it
is a rational) value reference_resistance × (excitation − measured)/measured. -/
theorem C1_impedance_formula (v r_s vin : ℚ) (h1 : 0.01 < v) (h2 : v < vin)
    (h3 : 0 ≤ r_s) :
    0 ≤ calculate_impedance v r_s vin ∧
    calculate_impedance v r_s vin = r_s * ((vin - v) / v) := by
  have hform := calculate_impedance_formula v r_s vin h1 h2
  refine ⟨?_, hform⟩
  rw [hform]
  have hv : (0 : ℚ) < v := lt_trans (by norm_num) h1
  exact mul_nonneg h3 (le_of_lt (div_pos (by linarith) hv))

/-- Witness for C1's amended theorem at (1.65 V, 10 kΩ, 3.3 V). -/
theorem C1_impedance_formula_witness :
    0 ≤ calculate_impedance (33/20) 10000 (33/10) ∧
    calculate_impedance (33/20) 10000 (33/10) =
      10000 * (((33 : ℚ)/10 - 33/20) / (33/20)) :=
  C1_impedance_formula (33/20) 10000 (33/10) (by norm_num) (by norm_num) (by norm_num)

/-- C2: whenever measured_voltage ≤ 0.01 V or measured_voltage ≥ the
excitation voltage, calculate_impedance returns exactly the sentinel
FAIL_RESISTANCE_VALUE = 1e9 Ω, for every reference resistance. -/
theorem C2_degenerate_sentinel (v r_s vin : ℚ) (h : v ≤ 0.01 ∨ v ≥ vin) :
    calculate_impedance v r_s vin = FAIL_RESISTANCE_VALUE :=
  calculate_impedance_guard v r_s vin h

/-- Witness for C2 at measured_voltage = 0, reference resistance 12345 Ω. -/
theorem C2_degenerate_sentinel_witness :
    calculate_impedance 0 12345 (33/10) = FAIL_RESISTANCE_VALUE :=
  C2_degenerate_sentinel 0 12345 (33/10) (Or.inl (by norm_num))

/-- C3: determine_status_and_color implements the ordered bands with
inclusive upper boundaries: r < 100 → (ACCEPTABLE, amber);
100 ≤ r ≤ 5000 → (GOOD, green); 5000 < r ≤ 20000 → (ACCEPTABLE, amber);
20000 < r ≤ 500000 → (BAD, red); 500000 < r (including the sentinel) →
(FAIL, blue). It is total: the five bands cover every rational input. -/
theorem C3_classifier_bands (r : ℚ) :
    (r < 100 → determine_status_and_color r = ("ACCEPTABLE", Color 255 255 0)) ∧
    (100 ≤ r → r ≤ 5000 → determine_status_and_color r = ("GOOD", Color 0 255 0)) ∧
    (5000 < r → r ≤ 20000 → determine_status_and_color r = ("ACCEPTABLE", Color 255 255 0)) ∧
    (20000 < r → r ≤ 500000 → determine_status_and_color r = ("BAD", Color 255 0 0)) ∧
    (500000 < r → determine_status_and_color r = ("FAIL", Color 0 0 255)) :=
  ⟨determine_band_short r, determine_band_good r, determine_band_acceptable r,
   determine_band_bad r, determine_band_fail r⟩

/-- Witness for C3 at the boundary value 5000 Ω (lower band wins: GOOD) and
at the sentinel (FAIL). -/
theorem C3_classifier_bands_witness :
    determine_status_and_color 5000 = ("GOOD", Color 0 255 0) ∧
    determine_status_and_color FAIL_RESISTANCE_VALUE = ("FAIL", Color 0 0 255) :=
  ⟨(C3_classifier_bands 5000).2.1 (by norm_num) (by norm_num),
   (C3_classifier_bands FAIL_RESISTANCE_VALUE).2.2.2.2
     (by norm_num [FAIL_RESISTANCE_VALUE])⟩

/-- C9: the two revisions' impedance computations are inequivalent — with the
shared reference resistance R_REF = 10000 Ω and excitation 3.3 V there is a
measured voltage strictly inside (0, 3.3) on which test.py's legacy formula
R_REF·v/(V_IN − v) and test2.py's calculate_impedance disagree. -/
theorem C9_revisions_inequivalent :
    R_REF = 10000 ∧
    ∃ v : ℚ, 0 < v ∧ v < 33/10 ∧
      r_val_legacy v ≠ calculate_impedance v R_REF (33/10) := by
  refine ⟨rfl, 11/10, by norm_num, by norm_num, ?_⟩
  have h1 : r_val_legacy (11/10) = 5000 := by
    norm_num [r_val_legacy, R_REF, V_IN]
  have h2 : calculate_impedance (11/10) R_REF (33/10) = 20000 := by
    rw [calculate_impedance_formula _ _ _ (by norm_num) (by norm_num)]
    norm_num [R_REF]
  rw [h1, h2]
  norm_num

/-- C10: every impedance below 100 Ω — including every negative or zero
value — is classified (ACCEPTABLE, amber), never GOOD, BAD or FAIL. -/
theorem C10_short_band (r : ℚ) (h : r < 100) :
    determine_status_and_color r = ("ACCEPTABLE", Color 255 255 0) :=
  determine_band_short r h

/-- Witness for C10 at the nonsensical impedance −50 Ω. -/
theorem C10_short_band_witness :
    determine_status_and_color (-50) = ("ACCEPTABLE", Color 255 255 0) :=
  C10_short_band (-50) (by norm_num)

/-- C5: for every completion order (permutation of the configured channels)
of the four concurrent measurements, the fan-in places channel ch's result
at list position ch of voltages, resistances, statuses and colors, and the
whole cycle result equals the one for the in-order completion — the output
is independent of completion order. -/
theorem C5_order_independent (ads : Option (Nat → SMBus)) (bv : ℚ) (order : List Nat)
    (h : order.Perm channels) :
    (∀ ch ∈ channels,
      (start_test ads bv order).voltages.getD ch 0 =
        (measure_channel ch (ads.map (fun f => f ch)) (v_in_actual bv)).voltage ∧
      (start_test ads bv order).resistances.getD ch 0 =
        (measure_channel ch (ads.map (fun f => f ch)) (v_in_actual bv)).resistance ∧
      (start_test ads bv order).statuses.getD ch "" =
        (measure_channel ch (ads.map (fun f => f ch)) (v_in_actual bv)).status ∧
      (start_test ads bv order).colors.getD ch (Color 0 0 0) =
        (measure_channel ch (ads.map (fun f => f ch)) (v_in_actual bv)).color) ∧
    start_test ads bv order = start_test ads bv channels := by
  have horder : ∀ c ∈ order, c < 4 := fun c hc => mem_channels_lt c (h.mem_iff.mp hc)
  constructor
  · intro ch hch
    exact start_test_getD ads bv order horder ch (h.mem_iff.mpr hch)
  · have hl1 := start_test_lengths ads bv order
    have hl2 := start_test_lengths ads bv channels
    have key : ∀ i, i < 4 → i ∈ order ∧ i ∈ channels := fun i hi =>
      ⟨h.mem_iff.mpr (lt4_mem_channels i hi), lt4_mem_channels i hi⟩
    apply cycleResult_ext
    · apply list_ext_of_getD _ _ 0 hl1.1 hl2.1
      intro i hi
      rw [(start_test_getD ads bv order horder i (key i hi).1).1,
          (start_test_getD ads bv channels mem_channels_lt i (key i hi).2).1]
    · apply list_ext_of_getD _ _ 0 hl1.2.1 hl2.2.1
      intro i hi
      rw [(start_test_getD ads bv order horder i (key i hi).1).2.1,
          (start_test_getD ads bv channels mem_channels_lt i (key i hi).2).2.1]
    · apply list_ext_of_getD _ _ "" hl1.2.2.1 hl2.2.2.1
      intro i hi
      rw [(start_test_getD ads bv order horder i (key i hi).1).2.2.1,
          (start_test_getD ads bv channels mem_channels_lt i (key i hi).2).2.2.1]
    · apply list_ext_of_getD _ _ (Color 0 0 0) hl1.2.2.2 hl2.2.2.2
      intro i hi
      rw [(start_test_getD ads bv order horder i (key i hi).1).2.2.2,
          (start_test_getD ads bv channels mem_channels_lt i (key i hi).2).2.2.2]

/-- Witness for C5 at the completion order [2, 0, 3, 1] with no ADS present. -/
theorem C5_order_independent_witness :
    start_test none 0 [2, 0, 3, 1] = start_test none 0 channels :=
  (C5_order_independent none 0 [2, 0, 3, 1] (by decide)).2

/-- C7: the cycle's excitation voltage is the live INA219 bus voltage exactly
when that reading exceeds 2.5 V, and the nominal fallback V_IN_NOMINAL =
3.3 V otherwise; the chosen value feeds every channel's impedance
computation. -/
theorem C7_excitation_selection (bv : ℚ) :
    ((2.5 < bv → v_in_actual bv = bv) ∧ (bv ≤ 2.5 → v_in_actual bv = V_IN_NOMINAL)) ∧
    (∀ (busF : Nat → SMBus) (order : List Nat), order.Perm channels →
      ∀ ch ∈ channels,
        (start_test (some busF) bv order).resistances.getD ch 0 =
          calculate_impedance (ADS1115.read_voltage (busF ch) ch)
            (RS_VALUES.getD ch 0) (v_in_actual bv)) := by
  refine ⟨⟨fun h => by simp [v_in_actual, h], fun h => by simp [v_in_actual, not_lt.mpr h]⟩, ?_⟩
  intro busF order hperm ch hch
  have horder : ∀ c ∈ order, c < 4 := fun c hc => mem_channels_lt c (hperm.mem_iff.mp hc)
  have hch4 : ch < 4 := mem_channels_lt ch hch
  have hres := (start_test_getD (some busF) bv order horder ch (hperm.mem_iff.mpr hch)).2.1
  rw [hres]
  simp only [Option.map_some']
  rw [measure_channel_some ch (busF ch) (v_in_actual bv) hch4]

/-- Witness for C7: a 0.0 V bus reading (absent or failed INA219) falls back
to the 3.3 V nominal excitation voltage. -/
theorem C7_excitation_selection_witness : v_in_actual 0 = V_IN_NOMINAL :=
  (C7_excitation_selection 0).1.2 (by norm_num)

/-- C4 counterexample: when the transport of channel 2 (and only channel 2)
raises, the cycle completes but channel 2's status is the string "FAIL" —
the code has no per-channel NO_DEVICE status, contrary to the claim. -/
theorem C4_counterexample :
    (start_test (some busOnly2Fails) 0 channels).statuses.getD 2 "" = "FAIL" ∧
    (start_test (some busOnly2Fails) 0 channels).statuses.getD 2 "" ≠ "NO_DEVICE" := by
  have hst := (start_test_getD (some busOnly2Fails) 0 channels mem_channels_lt 2
    (by decide)).2.2.1
  have hmc : measure_channel 2 (some (busOnly2Fails 2)) (v_in_actual 0) =
      ⟨2, 0, FAIL_RESISTANCE_VALUE, "FAIL", Color 0 0 255⟩ :=
    measure_channel_failed 2 (busOnly2Fails 2) (v_in_actual 0) (by norm_num) (Or.inr rfl)
  rw [hst]
  simp only [Option.map_some']
  rw [hmc]
  exact ⟨rfl, by decide⟩

/-- C4 (amended): if the transport of channel i and only channel i fails
(config write or result read raises), the cycle still completes with all
four entries in every output list; entry i reads 0.0 V, carries the
open-circuit sentinel impedance and status FAIL (not NO_DEVICE, which the
code does not have), and every other channel carries its own normal numeric
data in the same cycle — the failure is never fatal to the cycle. -/
theorem C4_failed_read_isolated (busF : Nat → SMBus) (bv : ℚ) (order : List Nat)
    (horder : order.Perm channels) (i : Nat) (hi : i ∈ channels)
    (hfail : (busF i).writeOk = false ∨ (busF i).readBlock 0 = none) :
    ((start_test (some busF) bv order).voltages.length = 4 ∧
     (start_test (some busF) bv order).resistances.length = 4 ∧
     (start_test (some busF) bv order).statuses.length = 4 ∧
     (start_test (some busF) bv order).colors.length = 4) ∧
    (start_test (some busF) bv order).statuses.getD i "" = "FAIL" ∧
    (start_test (some busF) bv order).voltages.getD i 0 = 0 ∧
    (start_test (some busF) bv order).resistances.getD i 0 = FAIL_RESISTANCE_VALUE ∧
    (∀ j ∈ channels, j ≠ i →
      (start_test (some busF) bv order).voltages.getD j 0 =
        ADS1115.read_voltage (busF j) j ∧
      (start_test (some busF) bv order).resistances.getD j 0 =
        calculate_impedance (ADS1115.read_voltage (busF j) j)
          (RS_VALUES.getD j 0) (v_in_actual bv)) := by
  have horder' : ∀ c ∈ order, c < 4 := fun c hc => mem_channels_lt c (horder.mem_iff.mp hc)
  have hi4 : i < 4 := mem_channels_lt i hi
  have hgetD := start_test_getD (some busF) bv order horder' i (horder.mem_iff.mpr hi)
  have hmc := measure_channel_failed i (busF i) (v_in_actual bv) hi4 hfail
  refine ⟨start_test_lengths _ _ _, ?_, ?_, ?_, ?_⟩
  · rw [hgetD.2.2.1]; simp only [Option.map_some']; rw [hmc]
  · rw [hgetD.1]; simp only [Option.map_some']; rw [hmc]
  · rw [hgetD.2.1]; simp only [Option.map_some']; rw [hmc]
  · intro j hj hji
    have hj4 : j < 4 := mem_channels_lt j hj
    have hgj := start_test_getD (some busF) bv order horder' j (horder.mem_iff.mpr hj)
    have hmj := measure_channel_some j (busF j) (v_in_actual bv) hj4
    constructor
    · rw [hgj.1]; simp only [Option.map_some']; rw [hmj]
    · rw [hgj.2.1]; simp only [Option.map_some']; rw [hmj]

/-- Witness for C4's amended theorem: channel 2's transport raises, the
cycle reports FAIL there and full-length result lists. -/
theorem C4_failed_read_isolated_witness :
    (start_test (some busOnly2Fails) 0 channels).statuses.length = 4 ∧
    (start_test (some busOnly2Fails) 0 channels).voltages.getD 2 0 = 0 :=
  ⟨(C4_failed_read_isolated busOnly2Fails 0 channels (List.Perm.refl _) 2 (by decide)
      (Or.inr rfl)).1.2.2.1,
   (C4_failed_read_isolated busOnly2Fails 0 channels (List.Perm.refl _) 2 (by decide)
      (Or.inr rfl)).2.2.1⟩

/-- C8: for every transport state, bus voltage and completion order, every
impedance placed in the cycle's resistances list is either exactly the
finite sentinel FAIL_RESISTANCE_VALUE (as on the no-ADS branch) or a
strictly positive rational — never negative, and never an infinity, which
the rational value model cannot even represent. -/
theorem C8_resistance_invariant (ads : Option (Nat → SMBus)) (bv : ℚ)
    (order : List Nat) (h : order.Perm channels) :
    ∀ r ∈ (start_test ads bv order).resistances,
      r = FAIL_RESISTANCE_VALUE ∨ 0 < r := by
  intro r hr
  have horder : ∀ c ∈ order, c < 4 := fun c hc => mem_channels_lt c (h.mem_iff.mp hc)
  have hlen := (start_test_lengths ads bv order).2.1
  obtain ⟨i, hilen, hget⟩ := List.mem_iff_getElem.mp hr
  have hi4 : i < 4 := by rwa [hlen] at hilen
  have hmem : i ∈ order := h.mem_iff.mpr (lt4_mem_channels i hi4)
  have hgd := (start_test_getD ads bv order horder i hmem).2.1
  rw [List.getD_eq_getElem _ _ hilen, hget] at hgd
  rw [hgd]
  cases ads with
  | none => exact Or.inl rfl
  | some busF =>
    simp only [Option.map_some']
    rw [measure_channel_some i (busF i) (v_in_actual bv) hi4]
    exact calculate_impedance_sentinel_or_pos _ _ _ (RS_VALUES_getD_pos i hi4)

/-- Witness for C8: with no ADS present, the first resistance of the cycle is
the sentinel, which satisfies the invariant. -/
theorem C8_resistance_invariant_witness :
    FAIL_RESISTANCE_VALUE = FAIL_RESISTANCE_VALUE ∨ (0 : ℚ) < FAIL_RESISTANCE_VALUE := by
  apply C8_resistance_invariant none 0 channels (List.Perm.refl _)
  have hlen := (start_test_lengths none 0 channels).2.1
  have h0 : (start_test none 0 channels).resistances.getD 0 0 = FAIL_RESISTANCE_VALUE :=
    (start_test_getD none 0 channels mem_channels_lt 0 (by decide)).2.1
  have h04 : 0 < (start_test none 0 channels).resistances.length := by
    rw [hlen]; norm_num
  rw [List.getD_eq_getElem _ _ h04] at h0
  rw [← h0]
  exact List.getElem_mem h04

/-- C6 counterexample: on a transport delivering the successive raw counts
768, 1536, 2304, 3072, the code's read_voltage returns the first sample
converted (0.096 V), while the discard-then-average-3 reader of the claim
would return 0.288 V — the code takes a single sample with no discard read
and no averaging. -/
theorem C6_counterexample :
    ADS1115.read_voltage busRamp 0 ≠ read_voltage_stabilized busRamp 0 := by
  have h1 : ADS1115.read_voltage busRamp 0 = 96/1000 := by
    norm_num [ADS1115.read_voltage, busRamp, muxCode, rawToVolts, toSigned,
      Nat.shiftLeft_eq]
  have h2 : read_voltage_stabilized busRamp 0 = 288/1000 := by
    norm_num [read_voltage_stabilized, busRamp, muxCode, rawToVolts, toSigned,
      Nat.shiftLeft_eq]
  rw [h1, h2]
  norm_num

/-- C6 (amended): read_voltage performs a single conversion: its result is
fully determined by the config-write outcome and the first read transaction
alone (so no discard read and no 3-sample average exists), and on a valid
channel with a successful transaction it is exactly that one raw sample
converted to volts. -/
theorem C6_single_sample (bus bus' : SMBus) (ch : Nat)
    (hw : bus.writeOk = bus'.writeOk) (h0 : bus.readBlock 0 = bus'.readBlock 0) :
    ADS1115.read_voltage bus ch = ADS1115.read_voltage bus' ch ∧
    (∀ b0 b1 : Fin 256, bus.writeOk = true → bus.readBlock 0 = some (b0, b1) →
      ch < 4 → ADS1115.read_voltage bus ch = rawToVolts ((b0.val <<< 8) ||| b1.val)) := by
  constructor
  · unfold ADS1115.read_voltage
    cases hm : muxCode ch with
    | none => rfl
    | some m => rw [hw, h0]
  · intro b0 b1 hwt hrd hch
    unfold ADS1115.read_voltage
    have hm : ∃ m, muxCode ch = some m := by
      interval_cases ch <;> exact ⟨_, rfl⟩
    obtain ⟨m, hm⟩ := hm
    rw [hm]
    simp [hwt, hrd]

/-- Witness for C6's amended theorem: busRamp and busRampCut agree on the
first read transaction only, yet read_voltage cannot tell them apart. -/
theorem C6_single_sample_witness :
    ADS1115.read_voltage busRamp 0 = ADS1115.read_voltage busRampCut 0 :=
  (C6_single_sample busRamp busRampCut 0 rfl rfl).1

end SECT
